import Mathlib

/-!
Shallow embedding of `src/app.py` (Plant-Disease-Detection): the per-plant
model/metadata registry, argmax-based classification, advice lookup and
fallback-safe translation, together with proofs of its key properties.

Python dicts are modelled as insertion-ordered association lists, floats as
rationals, the Keras model by the score vector it produces on the uploaded
image, file I/O by an explicit environment, and Streamlit diagnostics
(`st.warning` / `st.error`) and load side effects as explicit event lists.
-/

namespace PlantApp

variable {K V : Type}

/-- Python dict lookup on an insertion-ordered association list:
the value of the first (and for a dict, only) entry with the given key. -/
def dictGet? [DecidableEq K] (d : List (K × V)) (k : K) : Option V :=
  (d.find? (fun p => decide (p.1 = k))).map Prod.snd

/-- Python `d.get(k, dflt)`. -/
def dictGetD [DecidableEq K] (d : List (K × V)) (k : K) (dflt : V) : V :=
  (dictGet? d k).getD dflt

/-- Python `d[k] = v`: overwrite in place when the key is present, else append. -/
def dictInsert [DecidableEq K] (d : List (K × V)) (k : K) (v : V) : List (K × V) :=
  if d.any (fun p => decide (p.1 = k)) then
    d.map (fun p => if p.1 = k then (k, v) else p)
  else d ++ [(k, v)]

/-- The fixed registry of supported plant categories (`PLANTS`, lines 128-132). -/
def PLANTS : List String :=
  ["apple", "tomato", "potato", "orange", "chili", "grape", "tea",
   "peach", "coffee", "corn", "cucumber", "jamun", "lemon",
   "mango", "pepper", "rice", "soybean", "sugarcane", "wheat"]

/-- `MODEL_DIR` (line 122). -/
def MODEL_DIR : String := "/workspaces/Plant-Disease-Detection/models/"

/-- Line 148: the dict comprehension inverting a label-to-index class map into
an index-to-label map, iterated in source order, assignments overwriting. -/
def invertMap (class_map : List (String × Nat)) : List (Nat × String) :=
  class_map.foldl (fun acc p => dictInsert acc p.2 p.1) []

/-- `np.argmax` (line 226): the index of the maximum value, first occurrence
winning ties; `np.argmax` raises `ValueError` on an empty array, which is
modelled as `none`. -/
def argmax : List ℚ → Option Nat
  | [] => none
  | x :: xs => some ((x :: xs).findIdx (fun y => decide (y = xs.foldl max x)))

/-- Lines 226-228: `idx = np.argmax(pred)`, `confidence = float(pred[idx])`,
`predicted_class = <inverse map>.get(idx, "Unknown Disease")`, for the
inverse map of a single plant.  `none` models the `ValueError` raised by
`np.argmax` on an empty score vector. -/
def classify (inv_map : List (Nat × String)) (pred : List ℚ) :
    Option (Nat × ℚ × String) :=
  match argmax pred with
  | none => none
  | some idx => some (idx, pred.getD idx 0, dictGetD inv_map idx "Unknown Disease")

/-- Line 244: the low-confidence warning condition `confidence < 0.5`;
the float literal `0.5` is the rational one half, written `mkRat 1 2` so that
concrete instances evaluate by kernel reduction. -/
def lowConfFlag (confidence : ℚ) : Bool := decide (confidence < mkRat 1 2)

/-- Line 234: `predicted_class.replace("_", " ")`.  For a one-character
pattern and one-character replacement, Python `str.replace` is exactly a
character-wise map. -/
def replaceUnderscores (s : String) : String :=
  String.mk (s.data.map (fun c => if c = '_' then ' ' else c))

/-- The external translation capability (`GoogleTranslator(...).translate`).
`none` models any failure: network, quota, unsupported language, timeout. -/
def Translator : Type := String → String → Option String

/-- Lines 178-184 (`translate_text`).  Returns the text handed back to the
caller together with the number of external translation calls attempted
(0 or 1); the Python function returns only the text. -/
def translate_text (tr : Translator) (text : String) (lang_code : String) :
    String × Nat :=
  if lang_code = "en" ∨ text = "" then (text, 0)
  else
    match tr text lang_code with
    | some t => (t, 1)
    | none => (text, 1)

/-- The Keras model is opaque; for the single uploaded image of one detect
run it is abstracted by the score vector `model.predict(x)[0]` it yields. -/
abbrev Model : Type := List ℚ

/-- The file system seen by the app: for each plant name, the parsed contents
of `<plant>_class_map.json` (a label-to-index map in file order), of
`<plant>_prevention.json`, and of the model artifact `<plant>.h5`; `none`
means the file is absent. -/
structure Env where
  classMapFile : String → Option (List (String × Nat))
  preventionFile : String → Option (List (String × String))
  modelFile : String → Option Model

/-- The module-level `inv_maps` and `prevention_maps` dicts (line 175). -/
structure Maps where
  inv_maps : List (String × List (Nat × String))
  prevention_maps : List (String × List (String × String))

/-- Streamlit diagnostics: `st.warning` and `st.error` messages. -/
inductive Diag where
  | warning (msg : String)
  | error (msg : String)
deriving DecidableEq

/-- Load and inference side effects, used to observe when the underlying
I/O and model work actually happens. -/
inductive Event where
  | readClassMap (plant : String)
  | readPrevention (plant : String)
  | modelLookup (plant : String)
  | loadModel (plant : String)
  | infer (plant : String)
deriving DecidableEq

/-- The process-wide `st.cache_resource` state: one slot for the nullary
`load_class_and_prevention_maps` and one per-argument slot for
`load_plant_model`. -/
structure CacheState where
  mapsCache : Option Maps
  modelCache : List (String × Option Model)

/-- The cache state at process start: nothing cached yet. -/
def initialCache : CacheState := ⟨none, []⟩

/-- Result of a resource operation: its value, the updated cache, the
diagnostics it emitted and the load side effects it performed. -/
structure LoadResult (α : Type) where
  val : α
  cache : CacheState
  diags : List Diag
  events : List Event

/-- The loop body of `load_class_and_prevention_maps` (lines 140-159),
structurally recursive over the list of plants. -/
def loadMapsFor (env : Env) : List String → Maps × List Diag × List Event
  | [] => (⟨[], []⟩, [], [])
  | plant :: rest =>
    let cm :=
      match env.classMapFile plant with
      | some src => (invertMap src, ([] : List Diag), [Event.readClassMap plant])
      | none => ([], [Diag.warning ("⚠️ Class map missing for " ++ plant)], [])
    let pm :=
      match env.preventionFile plant with
      | some src => (src, ([] : List Diag), [Event.readPrevention plant])
      | none => ([], [Diag.warning ("⚠️ Prevention file missing for " ++ plant)], [])
    let r := loadMapsFor env rest
    (⟨(plant, cm.1) :: r.1.inv_maps, (plant, pm.1) :: r.1.prevention_maps⟩,
     cm.2.1 ++ pm.2.1 ++ r.2.1, cm.2.2 ++ pm.2.2 ++ r.2.2)

/-- Lines 136-161, `load_class_and_prevention_maps`: one eager pass over all
of `PLANTS`, building both metadata dicts. -/
def load_class_and_prevention_maps (env : Env) : Maps × List Diag × List Event :=
  loadMapsFor env PLANTS

/-- Lines 166-172, `load_plant_model`: an existence check on the model path,
then either Keras deserialization or `st.error` and `None`. -/
def load_plant_model (env : Env) (plant_name : String) :
    Option Model × List Diag × List Event :=
  match env.modelFile plant_name with
  | some m => (some m, [], [Event.modelLookup plant_name, Event.loadModel plant_name])
  | none =>
    (none, [Diag.error ("Model not found: " ++ MODEL_DIR ++ plant_name ++ ".h5")],
     [Event.modelLookup plant_name])

/-- `load_class_and_prevention_maps` under its `st.cache_resource` decorator:
the first call runs the body and caches the value; later calls return the
cached value and perform no I/O. -/
def cached_load_maps (env : Env) (cs : CacheState) : LoadResult Maps :=
  match cs.mapsCache with
  | some m => ⟨m, cs, [], []⟩
  | none =>
    let r := load_class_and_prevention_maps env
    ⟨r.1, { cs with mapsCache := some r.1 }, r.2.1, r.2.2⟩

/-- `load_plant_model` under its `st.cache_resource` decorator, keyed by the
plant name; the cached value may itself be `None`. -/
def cached_load_plant_model (env : Env) (cs : CacheState) (plant : String) :
    LoadResult (Option Model) :=
  match dictGet? cs.modelCache plant with
  | some cached => ⟨cached, cs, [], []⟩
  | none =>
    let r := load_plant_model env plant
    ⟨r.1, { cs with modelCache := dictInsert cs.modelCache plant r.1 }, r.2.1, r.2.2⟩

/-- Line 175: the module-level call performed at app startup, before any
user interaction. -/
def appStartup (env : Env) (cs : CacheState) : LoadResult Maps :=
  cached_load_maps env cs

/-- The options of the plant selectbox (lines 200-204): exactly `PLANTS`. -/
def plantSelectboxOptions : List String := PLANTS

/-- What one detect run displays (lines 241-248). -/
structure DetectOutput where
  disease_translated : String
  confidence : ℚ
  low_conf_warning : Bool
  prevention_translated : String
deriving DecidableEq

/-- Outcome of pressing the detect button. `stopped` is `st.stop()` after a
failed model load (line 219); `raised` is the unhandled `ValueError` from
`np.argmax` on an empty score vector. -/
inductive DetectResult where
  | stopped
  | raised
  | ok (out : DetectOutput)
deriving DecidableEq

/-- Lines 213-248: the detect-button flow.  Obtains the (cached) model,
stops when it is `None`, otherwise runs inference and resolves the
prediction, advice and translations via `classify`, the metadata dicts and
`translate_text`. -/
def detect (env : Env) (cs : CacheState) (tr : Translator) (maps : Maps)
    (plant : String) (lang_code : String) : LoadResult DetectResult :=
  let r := cached_load_plant_model env cs plant
  match r.val with
  | none => ⟨.stopped, r.cache, r.diags ++ [Diag.error "Model could not be loaded."], r.events⟩
  | some m =>
    let pred : List ℚ := m
    match classify (dictGetD maps.inv_maps plant []) pred with
    | none => ⟨.raised, r.cache, r.diags, r.events ++ [Event.infer plant]⟩
    | some pc =>
      let confidence := pc.2.1
      let predicted_class := pc.2.2
      let prevention :=
        dictGetD (dictGetD maps.prevention_maps plant []) predicted_class
          "No prevention advice available."
      let disease_translated :=
        (translate_text tr (replaceUnderscores predicted_class) lang_code).1
      let prevention_translated := (translate_text tr prevention lang_code).1
      ⟨.ok ⟨disease_translated, confidence, lowConfFlag confidence, prevention_translated⟩,
       r.cache, r.diags, r.events ++ [Event.infer plant]⟩

/-! ### Concrete environments and translators used for witnesses -/

/-- An environment in which every metadata and model file exists. -/
def envAll : Env :=
  ⟨fun _ => some [("Healthy", 0)],
   fun _ => some [("Healthy", "Water regularly.")],
   fun _ => some [mkRat 9 10]⟩

/-- An environment with no files at all. -/
def envEmpty : Env := ⟨fun _ => none, fun _ => none, fun _ => none⟩

/-- An environment with only model files (no metadata). -/
def envModelOnly : Env := ⟨fun _ => none, fun _ => none, fun _ => some [mkRat 6 10]⟩

/-- An environment whose labels contain underscores while its advice map is
keyed on the space-separated form. -/
def envScab : Env :=
  ⟨fun _ => some [("Apple_scab", 0)],
   fun _ => some [("Apple scab", "Prune infected leaves.")],
   fun _ => some [mkRat 8 10]⟩

/-- A translator whose external call always fails. -/
def trFail : Translator := fun _ _ => none

/-- The empty metadata dicts. -/
def emptyMaps : Maps := ⟨[], []⟩

/-! ### Association-list (Python dict) lemmas -/

theorem find?_map_overwrite_self [DecidableEq K] (d : List (K × V)) (k : K) (v : V)
    (h : d.any (fun p => decide (p.1 = k)) = true) :
    (d.map (fun p => if p.1 = k then (k, v) else p)).find?
      (fun p => decide (p.1 = k)) = some (k, v) := by
  induction d with
  | nil => simp at h
  | cons p d ih =>
    by_cases hp : p.1 = k
    · simp [hp, List.find?_cons]
    · simp only [List.any_cons, Bool.or_eq_true, decide_eq_true_eq] at h
      rcases h with h | h


      · exact absurd h hp
      · simpa [hp, List.find?_cons] using ih (by simpa using h)

theorem find?_map_overwrite_ne [DecidableEq K] (d : List (K × V)) (k k' : K) (v : V)
    (hne : k' ≠ k) :
    (d.map (fun p => if p.1 = k then (k, v) else p)).find?
      (fun p => decide (p.1 = k')) = d.find? (fun p => decide (p.1 = k')) := by
  induction d with
  | nil => rfl
  | cons p d ih =>
    by_cases hp : p.1 = k
    · have hpk' : ¬ p.1 = k' := by rw [hp]; exact fun h => hne h.symm
      rw [List.map_cons, if_pos hp, List.find?_cons, List.find?_cons]
      rw [show decide (((k, v) : K × V).1 = k') = false from
        decide_eq_false (fun h => hne h.symm)]
      rw [show decide (p.1 = k') = false from decide_eq_false hpk']
      exact ih
    · rw [List.map_cons, if_neg hp, List.find?_cons, List.find?_cons]
      cases hd : decide (p.1 = k')
      · exact ih
      · rfl

theorem dictGet?_dictInsert [DecidableEq K] (d : List (K × V)) (k k' : K) (v : V) :
    dictGet? (dictInsert d k v) k' = if k' = k then some v else dictGet? d k' := by
  unfold dictInsert dictGet?
  by_cases hany : d.any (fun p => decide (p.1 = k)) = true
  · rw [if_pos hany]
    by_cases hk : k' = k
    · subst hk
      rw [find?_map_overwrite_self d k' v hany, if_pos rfl]
      rfl
    · rw [find?_map_overwrite_ne d k k' v hk, if_neg hk]
  · rw [if_neg hany, List.find?_append]
    have hnone : d.find? (fun p => decide (p.1 = k)) = none := by
      rw [List.find?_eq_none]
      intro x hx hpx
      exact hany (List.any_eq_true.mpr ⟨x, hx, hpx⟩)
    by_cases hk : k' = k
    · subst hk
      rw [hnone, if_pos rfl]
      simp [List.find?_cons]
    · have hsingle : ([(k, v)].find? (fun p => decide (p.1 = k'))) = none := by
        rw [List.find?_cons]
        rw [show decide (((k, v) : K × V).1 = k') = false from
          decide_eq_false (fun h => hk h.symm)]
        rfl
      rw [hsingle, if_neg hk]
      cases d.find? (fun p => decide (p.1 = k')) <;> rfl

theorem dictGet?_invertMap (src : List (String × Nat)) (i : Nat) :
    dictGet? (invertMap src) i
      = (src.reverse.find? (fun p => decide (p.2 = i))).map Prod.fst := by
  induction src using List.reverseRecOn with
  | nil => rfl
  | append_singleton src p ih =>
    have hfold : invertMap (src ++ [p]) = dictInsert (invertMap src) p.2 p.1 := by
      unfold invertMap
      rw [List.foldl_append]
      rfl
    rw [hfold, dictGet?_dictInsert, List.reverse_concat, List.find?_cons]
    by_cases hp : p.2 = i
    · simp [hp]
    · simp only [if_neg (fun h : i = p.2 => hp h.symm), ih]
      rw [show (decide (p.2 = i)) = false from decide_eq_false hp]

theorem dictGet?_invertMap_roundtrip (src : List (String × Nat))
    (hnd : (src.map Prod.snd).Nodup) (l : String) (i : Nat) (hmem : (l, i) ∈ src) :
    dictGet? (invertMap src) i = some l := by
  rw [dictGet?_invertMap]
  have hrev : (l, i) ∈ src.reverse := List.mem_reverse.mpr hmem
  have hsome : (src.reverse.find? (fun p => decide (p.2 = i))).isSome :=
    List.find?_isSome.mpr ⟨(l, i), hrev, by simp⟩
  obtain ⟨q, hq⟩ := Option.isSome_iff_exists.mp hsome
  have hqmem : q ∈ src := List.mem_reverse.mp (List.mem_of_find?_eq_some hq)
  have hqi : q.2 = i := by simpa using List.find?_some hq
  have hql : q = (l, i) :=
    List.inj_on_of_nodup_map hnd hqmem hmem (by simpa using hqi)
  rw [hq, hql]
  rfl

/-! ### Argmax lemmas -/

theorem le_foldl_max (xs : List ℚ) (x : ℚ) : x ≤ xs.foldl max x := by
  induction xs generalizing x with
  | nil => exact le_refl x
  | cons y ys ih => exact le_trans (le_max_left x y) (ih (max x y))

theorem le_foldl_max_of_mem {y : ℚ} {xs : List ℚ} (h : y ∈ xs) (x : ℚ) :
    y ≤ xs.foldl max x := by
  induction xs generalizing x with
  | nil => cases h
  | cons z zs ih =>
    rcases List.mem_cons.mp h with rfl | hz
    · exact le_trans (le_max_right x y) (le_foldl_max zs (max x y))
    · exact ih hz (max x z)

theorem foldl_max_mem (xs : List ℚ) (x : ℚ) :
    xs.foldl max x = x ∨ xs.foldl max x ∈ xs := by
  induction xs generalizing x with
  | nil => exact Or.inl rfl
  | cons y ys ih =>
    rcases ih (max x y) with h | h
    · rcases max_choice x y with hm | hm
      · exact Or.inl (by rw [List.foldl_cons, h, hm])
      · exact Or.inr (by rw [List.foldl_cons, h, hm]; exact List.mem_cons_self y ys)
    · exact Or.inr (List.mem_cons_of_mem y h)

theorem getD_eq_getElem (l : List ℚ) (j : Nat) (h : j < l.length) :
    l.getD j 0 = l[j] := by
  rw [List.getD_eq_getElem?_getD, List.getElem?_eq_getElem h]
  rfl

/-- Full characterization of `np.argmax` on a non-empty score vector: the
returned index is in bounds, carries the maximum score, and every strictly
earlier position carries a strictly smaller score (first occurrence wins
ties). -/
theorem argmax_spec (scores : List ℚ) (h : scores ≠ []) :
    ∃ i, argmax scores = some i ∧ i < scores.length ∧
      (∀ j, j < scores.length → scores.getD j 0 ≤ scores.getD i 0) ∧
      (∀ j, j < i → scores.getD j 0 < scores.getD i 0) := by
  match scores, h with
  | x :: xs, _ =>
    set l : List ℚ := x :: xs with hl
    set m : ℚ := xs.foldl max x with hm
    have hbound : ∀ y ∈ l, y ≤ m := by
      intro y hy
      rcases List.mem_cons.mp hy with rfl | hy
      · exact le_foldl_max xs y
      · exact le_foldl_max_of_mem hy x
    have hmem : m ∈ l := by
      rcases foldl_max_mem xs x with hc | hc
      · rw [hm, hc]; exact List.mem_cons_self x xs
      · exact List.mem_cons_of_mem x hc
    have hex : ∃ y ∈ l, (fun y => decide (y = m)) y = true := ⟨m, hmem, by simp⟩
    set i : Nat := l.findIdx (fun y => decide (y = m)) with hi
    have hlt : i < l.length := List.findIdx_lt_length_of_exists hex
    have hival : l[i] = m := by
      have := @List.findIdx_getElem _ (fun y => decide (y = m)) l hlt
      simpa using this
    refine ⟨i, rfl, hlt, ?_, ?_⟩
    · intro j hj
      rw [getD_eq_getElem l j hj, getD_eq_getElem l i hlt, hival]
      exact hbound _ (List.getElem_mem hj)
    · intro j hj
      have hjlt : j < l.length := lt_trans hj hlt
      have hne : l[j] ≠ m := by
        have := @List.not_of_lt_findIdx _ (fun y => decide (y = m)) l j hj
        simpa using this
      rw [getD_eq_getElem l j hjlt, getD_eq_getElem l i hlt, hival]
      exact lt_of_le_of_ne (hbound _ (List.getElem_mem hjlt)) hne

/-- `classify` on a non-empty score vector, in terms of the argmax index. -/
theorem classify_spec (inv_map : List (Nat × String)) (scores : List ℚ) (i : Nat)
    (h : argmax scores = some i) :
    classify inv_map scores
      = some (i, scores.getD i 0, dictGetD inv_map i "Unknown Disease") := by
  unfold classify
  rw [h]

/-! ### Underscore-replacement lemmas -/

theorem replaceUnderscores_no_underscore (s : String) :
    '_' ∉ (replaceUnderscores s).data := by
  intro hmem
  unfold replaceUnderscores at hmem
  rcases List.mem_map.mp hmem with ⟨c, _, hc⟩
  by_cases h : c = '_'
  · rw [if_pos h] at hc
    exact absurd hc (by decide)
  · rw [if_neg h] at hc
    exact h hc

theorem replaceUnderscores_ne {s : String} (h : '_' ∈ s.data) :
    replaceUnderscores s ≠ s := by
  intro heq
  exact replaceUnderscores_no_underscore s (heq.symm ▸ h)

theorem dictGet?_eq_none_of_no_underscore_keys {label : String}
    {pm : List (String × String)} (hl : '_' ∈ label.data)
    (hk : ∀ p ∈ pm, '_' ∉ p.1.data) : dictGet? pm label = none := by
  unfold dictGet?
  rw [List.find?_eq_none.mpr]
  · rfl
  · intro p hp hpl
    have : p.1 = label := by simpa using hpl
    exact hk p hp (this ▸ hl)

/-! ### Metadata-loading lemmas -/

theorem loadMapsFor_inv_missing (env : Env) (plants : List String) (plant : String)
    (hmem : plant ∈ plants) (hnone : env.classMapFile plant = none) :
    dictGet? (loadMapsFor env plants).1.inv_maps plant = some [] := by
  induction plants with
  | nil => cases hmem
  | cons q rest ih =>
    by_cases hq : q = plant
    · subst hq
      simp only [loadMapsFor, hnone, dictGet?, List.find?_cons]
      simp
    · have hmem' : plant ∈ rest := by
        rcases List.mem_cons.mp hmem with h | h
        · exact absurd h.symm hq
        · exact h
      simp only [loadMapsFor, dictGet?, List.find?_cons]
      rw [show decide ((q : String) = plant) = false from decide_eq_false hq]
      exact ih hmem'

theorem loadMapsFor_prevention_missing (env : Env) (plants : List String)
    (plant : String) (hmem : plant ∈ plants)
    (hnone : env.preventionFile plant = none) :
    dictGet? (loadMapsFor env plants).1.prevention_maps plant = some [] := by
  induction plants with
  | nil => cases hmem
  | cons q rest ih =>
    by_cases hq : q = plant
    · subst hq
      simp only [loadMapsFor, hnone, dictGet?, List.find?_cons]
      simp
    · have hmem' : plant ∈ rest := by
        rcases List.mem_cons.mp hmem with h | h
        · exact absurd h.symm hq
        · exact h
      simp only [loadMapsFor, dictGet?, List.find?_cons]
      rw [show decide ((q : String) = plant) = false from decide_eq_false hq]
      exact ih hmem'

theorem loadMapsFor_warn_classMap (env : Env) (plants : List String) (plant : String)
    (hmem : plant ∈ plants) (hnone : env.classMapFile plant = none) :
    Diag.warning ("⚠️ Class map missing for " ++ plant) ∈ (loadMapsFor env plants).2.1 := by
  induction plants with
  | nil => cases hmem
  | cons q rest ih =>
    by_cases hq : q = plant
    · subst hq
      simp only [loadMapsFor, hnone]
      cases env.preventionFile q <;> simp
    · have hmem' : plant ∈ rest := by
        rcases List.mem_cons.mp hmem with h | h
        · exact absurd h.symm hq
        · exact h
      simp only [loadMapsFor]
      cases env.classMapFile q <;> cases env.preventionFile q <;>
        simp [List.mem_append, ih hmem']

theorem loadMapsFor_warn_prevention (env : Env) (plants : List String) (plant : String)
    (hmem : plant ∈ plants) (hnone : env.preventionFile plant = none) :
    Diag.warning ("⚠️ Prevention file missing for " ++ plant)
      ∈ (loadMapsFor env plants).2.1 := by
  induction plants with
  | nil => cases hmem
  | cons q rest ih =>
    by_cases hq : q = plant
    · subst hq
      simp only [loadMapsFor, hnone]
      cases env.classMapFile q <;> simp
    · have hmem' : plant ∈ rest := by
        rcases List.mem_cons.mp hmem with h | h
        · exact absurd h.symm hq
        · exact h
      simp only [loadMapsFor]
      cases env.classMapFile q <;> cases env.preventionFile q <;>
        simp [List.mem_append, ih hmem']

theorem loadMapsFor_diags_warnings (env : Env) (plants : List String) :
    ∀ d ∈ (loadMapsFor env plants).2.1, ∃ msg, d = Diag.warning msg := by
  induction plants with
  | nil => intro d hd; cases hd
  | cons q rest ih =>
    intro d hd
    simp only [loadMapsFor] at hd
    cases hc : env.classMapFile q <;> cases hp : env.preventionFile q <;>
      rw [hc, hp] at hd <;> simp at hd <;>
      first
        | exact ih d hd
        | rcases hd with hd | hd
          · exact ⟨_, hd⟩
          · exact ih d hd
        | rcases hd with hd | hd | hd
          · exact ⟨_, hd⟩
          · exact ⟨_, hd⟩
          · exact ih d hd

theorem loadMapsFor_event_readClassMap (env : Env) (plants : List String)
    (plant : String) (hmem : plant ∈ plants)
    (hsome : env.classMapFile plant ≠ none) :
    Event.readClassMap plant ∈ (loadMapsFor env plants).2.2 := by
  induction plants with
  | nil => cases hmem
  | cons q rest ih =>
    by_cases hq : q = plant
    · subst hq
      rcases Option.ne_none_iff_exists.mp hsome with ⟨src, hsrc⟩
      simp only [loadMapsFor, hsrc.symm]
      cases env.preventionFile q <;> simp
    · have hmem' : plant ∈ rest := by
        rcases List.mem_cons.mp hmem with h | h
        · exact absurd h.symm hq
        · exact h
      simp only [loadMapsFor]
      cases env.classMapFile q <;> cases env.preventionFile q <;>
        simp [List.mem_append, ih hmem']

/-! ### Cache lemmas -/

theorem cached_load_plant_model_miss (env : Env) (cs : CacheState) (plant : String)
    (h : dictGet? cs.modelCache plant = none) :
    cached_load_plant_model env cs plant =
      ⟨(load_plant_model env plant).1,
       ⟨cs.mapsCache, dictInsert cs.modelCache plant (load_plant_model env plant).1⟩,
       (load_plant_model env plant).2.1, (load_plant_model env plant).2.2⟩ := by
  unfold cached_load_plant_model
  rw [h]

theorem cached_load_plant_model_hit (env : Env) (cs : CacheState) (plant : String)
    (m : Option Model) (h : dictGet? cs.modelCache plant = some m) :
    cached_load_plant_model env cs plant = ⟨m, cs, [], []⟩ := by
  unfold cached_load_plant_model
  rw [h]

theorem cached_load_maps_miss (env : Env) (cs : CacheState) (h : cs.mapsCache = none) :
    cached_load_maps env cs =
      ⟨(load_class_and_prevention_maps env).1,
       ⟨some (load_class_and_prevention_maps env).1, cs.modelCache⟩,
       (load_class_and_prevention_maps env).2.1,
       (load_class_and_prevention_maps env).2.2⟩ := by
  unfold cached_load_maps
  rw [h]

theorem cached_load_maps_hit (env : Env) (cs : CacheState) (m : Maps)
    (h : cs.mapsCache = some m) :
    cached_load_maps env cs = ⟨m, cs, [], []⟩ := by
  unfold cached_load_maps
  rw [h]

/-! ### Claim theorems -/

/-- C1: for every non-empty raw score vector returned by the predictor,
`classify` selects the position of the maximum score with ties broken by the
lowest index (first occurrence), sets the confidence to the score at that
index verbatim — no softmax or renormalization — and resolves the label by
looking the index up in the index-to-label map with default
"Unknown Disease". -/
theorem C1_classify_argmax (inv_map : List (Nat × String)) (scores : List ℚ)
    (h : scores ≠ []) :
    ∃ i, argmax scores = some i ∧ i < scores.length ∧
      (∀ j, j < scores.length → scores.getD j 0 ≤ scores.getD i 0) ∧
      (∀ j, j < i → scores.getD j 0 < scores.getD i 0) ∧
      classify inv_map scores
        = some (i, scores.getD i 0, dictGetD inv_map i "Unknown Disease") := by
  obtain ⟨i, h1, h2, h3, h4⟩ := argmax_spec scores h
  exact ⟨i, h1, h2, h3, h4, classify_spec inv_map scores i h1⟩

/-- Witness for C1 at the spec's tie example, the raw score vector
[0.4, 0.4, 0.2]: the lowest-index winner is selected. -/
theorem C1_classify_argmax_witness :
    ∃ i, argmax [mkRat 4 10, mkRat 4 10, mkRat 2 10] = some i ∧
      i < ([mkRat 4 10, mkRat 4 10, mkRat 2 10] : List ℚ).length ∧
      (∀ j, j < ([mkRat 4 10, mkRat 4 10, mkRat 2 10] : List ℚ).length →
        ([mkRat 4 10, mkRat 4 10, mkRat 2 10] : List ℚ).getD j 0
          ≤ ([mkRat 4 10, mkRat 4 10, mkRat 2 10] : List ℚ).getD i 0) ∧
      (∀ j, j < i → ([mkRat 4 10, mkRat 4 10, mkRat 2 10] : List ℚ).getD j 0
          < ([mkRat 4 10, mkRat 4 10, mkRat 2 10] : List ℚ).getD i 0) ∧
      classify [(0, "x"), (1, "y"), (2, "z")] [mkRat 4 10, mkRat 4 10, mkRat 2 10]
        = some (i, ([mkRat 4 10, mkRat 4 10, mkRat 2 10] : List ℚ).getD i 0,
            dictGetD [(0, "x"), (1, "y"), (2, "z")] i "Unknown Disease") :=
  C1_classify_argmax [(0, "x"), (1, "y"), (2, "z")]
    [mkRat 4 10, mkRat 4 10, mkRat 2 10] (by decide)

/-- C2: the index-to-label map is the inversion of the label-to-index source:
a lookup returns the label of the LAST source pair carrying that index
(last-write-wins, no collision detection), an injective source inverts as an
exact round-trip, and on the spec's two examples the results are exactly
(0 maps to "B") and (0 maps to "A", 1 maps to "B"). -/
theorem C2_invert_last_write_wins (src : List (String × Nat)) :
    (∀ i, dictGet? (invertMap src) i
        = (src.reverse.find? (fun p => decide (p.2 = i))).map Prod.fst) ∧
    ((src.map Prod.snd).Nodup →
      ∀ l i, (l, i) ∈ src → dictGet? (invertMap src) i = some l) ∧
    invertMap [("A", 0), ("B", 0)] = [(0, "B")] ∧
    invertMap [("A", 0), ("B", 1)] = [(0, "A"), (1, "B")] :=
  ⟨fun i => dictGet?_invertMap src i,
   fun hnd l i hmem => dictGet?_invertMap_roundtrip src hnd l i hmem,
   by decide, by decide⟩

/-- Witness for C2: round-trip on the injective source map of the spec. -/
theorem C2_invert_last_write_wins_witness :
    ([("A", 0), ("B", 1)].map Prod.snd).Nodup ∧
    dictGet? (invertMap [("A", 0), ("B", 1)]) 1 = some "B" :=
  ⟨by decide,
   (C2_invert_last_write_wins [("A", 0), ("B", 1)]).2.1 (by decide) "B" 1 (by decide)⟩

/-- C3: `translate_text` returns the input unchanged with no external call
when the target language is "en" or the text is empty; otherwise it attempts
exactly one external call, and when that call fails it returns the original
text unchanged — it is a total function, so no error ever reaches the
caller. -/
theorem C3_translate_fallback (tr : Translator) (text lang_code : String) :
    (lang_code = "en" → translate_text tr text lang_code = (text, 0)) ∧
    (text = "" → translate_text tr text lang_code = (text, 0)) ∧
    (tr text lang_code = none → (translate_text tr text lang_code).1 = text) ∧
    (lang_code ≠ "en" → text ≠ "" → (translate_text tr text lang_code).2 = 1) := by
  refine ⟨?_, ?_, ?_, ?_⟩
  · intro h
    unfold translate_text
    rw [if_pos (Or.inl h)]
  · intro h
    unfold translate_text
    rw [if_pos (Or.inr h)]
  · intro h
    unfold translate_text
    by_cases hf : lang_code = "en" ∨ text = ""
    · rw [if_pos hf]
    · rw [if_neg hf, h]
  · intro h1 h2
    unfold translate_text
    rw [if_neg (by push_neg; exact ⟨h1, h2⟩)]
    cases tr text lang_code <;> rfl

/-- Witness for C3: the failing translator leaves "hello" unchanged for
French after one attempted call, and "en" short-circuits with none. -/
theorem C3_translate_fallback_witness :
    translate_text trFail "hello" "en" = ("hello", 0) ∧
    (translate_text trFail "hello" "fr").1 = "hello" ∧
    (translate_text trFail "hello" "fr").2 = 1 :=
  ⟨(C3_translate_fallback trFail "hello" "en").1 rfl,
   (C3_translate_fallback trFail "hello" "fr").2.2.1 rfl,
   (C3_translate_fallback trFail "hello" "fr").2.2.2 (by decide) (by decide)⟩

/-- C10: classification is defined exactly for non-empty score vectors: for
every non-empty vector the argmax index is within the vector's bounds (so
reading the confidence at that index cannot fail) and `classify` yields a
prediction, while for the empty vector `np.argmax` errors — `argmax` yields
`none` and `classify` yields no prediction. -/
theorem C10_argmax_safety (inv_map : List (Nat × String)) :
    (∀ scores : List ℚ, scores ≠ [] →
      ∃ i, argmax scores = some i ∧ i < scores.length ∧
        classify inv_map scores ≠ none) ∧
    argmax ([] : List ℚ) = none ∧ classify inv_map [] = none := by
  refine ⟨?_, rfl, rfl⟩
  intro scores h
  obtain ⟨i, h1, h2, _, _⟩ := argmax_spec scores h
  refine ⟨i, h1, h2, ?_⟩
  rw [classify_spec inv_map scores i h1]
  simp

/-- Witness for C10 on the vector [0.1, 0.7, 0.2]. -/
theorem C10_argmax_safety_witness :
    ∃ i, argmax [mkRat 1 10, mkRat 7 10, mkRat 2 10] = some i ∧
      i < ([mkRat 1 10, mkRat 7 10, mkRat 2 10] : List ℚ).length ∧
      classify [] [mkRat 1 10, mkRat 7 10, mkRat 2 10] ≠ none :=
  (C10_argmax_safety []).1 [mkRat 1 10, mkRat 7 10, mkRat 2 10] (by decide)

/-- C4: when the selected plant's model artifact is absent (and not yet
cached), the detect flow short-circuits with `st.stop` before inference: no
`infer` event ever occurs, an error-level diagnostic naming the missing
model path is emitted by the loader, and a second error reports the failed
load. -/
theorem C4_missing_model_short_circuit (env : Env) (cs : CacheState)
    (tr : Translator) (maps : Maps) (plant lang_code : String)
    (hmiss : env.modelFile plant = none)
    (hnc : dictGet? cs.modelCache plant = none) :
    (detect env cs tr maps plant lang_code).val = DetectResult.stopped ∧
    (∀ p, Event.infer p ∉ (detect env cs tr maps plant lang_code).events) ∧
    Diag.error ("Model not found: " ++ MODEL_DIR ++ plant ++ ".h5")
      ∈ (detect env cs tr maps plant lang_code).diags ∧
    Diag.error "Model could not be loaded."
      ∈ (detect env cs tr maps plant lang_code).diags := by
  have h1 : cached_load_plant_model env cs plant =
      ⟨none, ⟨cs.mapsCache, dictInsert cs.modelCache plant none⟩,
       [Diag.error ("Model not found: " ++ MODEL_DIR ++ plant ++ ".h5")],
       [Event.modelLookup plant]⟩ := by
    rw [cached_load_plant_model_miss env cs plant hnc]
    simp only [load_plant_model, hmiss]
  unfold detect
  rw [h1]
  refine ⟨rfl, ?_, ?_, ?_⟩
  · intro p
    simp
  · simp
  · simp

/-- Witness for C4 in the environment with no files. -/
theorem C4_missing_model_short_circuit_witness :
    (detect envEmpty initialCache trFail emptyMaps "apple" "en").val
      = DetectResult.stopped ∧
    Diag.error ("Model not found: " ++ MODEL_DIR ++ "apple" ++ ".h5")
      ∈ (detect envEmpty initialCache trFail emptyMaps "apple" "en").diags :=
  ⟨(C4_missing_model_short_circuit envEmpty initialCache trFail emptyMaps
      "apple" "en" rfl rfl).1,
   (C4_missing_model_short_circuit envEmpty initialCache trFail emptyMaps
      "apple" "en" rfl rfl).2.2.1⟩

/-- C5 counterexample: in a concrete environment where every file exists, the
single startup call of line 175 — which runs at module import, before any
user interaction and hence before any access to the "tomato" category —
already reads tomato's class map and prevention file.  The metadata maps are
therefore NOT constructed lazily per category on first access: a load occurs
for a category before its first access, refuting the claim as stated. -/
theorem C5_counterexample :
    Event.readClassMap "tomato" ∈ (appStartup envAll initialCache).events ∧
    Event.readPrevention "tomato" ∈ (appStartup envAll initialCache).events := by
  constructor <;> decide

/-- C5 amended: the predictor for a category is loaded lazily on its first
access and cached — a second call returns the identical value and identical
cache with no further side effects — and the metadata loader is likewise
cached after its first call; but that first call builds the two metadata
maps for ALL registered categories in one eager startup pass, reading every
present class-map file, rather than per category on first access. -/
theorem C5_cache_once (env : Env) (cs : CacheState) (plant : String)
    (hnc : dictGet? cs.modelCache plant = none) (hm0 : cs.mapsCache = none) :
    ((cached_load_plant_model env
        (cached_load_plant_model env cs plant).cache plant).val
      = (cached_load_plant_model env cs plant).val ∧
     (cached_load_plant_model env
        (cached_load_plant_model env cs plant).cache plant).events = [] ∧
     (cached_load_plant_model env
        (cached_load_plant_model env cs plant).cache plant).cache
      = (cached_load_plant_model env cs plant).cache ∧
     Event.modelLookup plant ∈ (cached_load_plant_model env cs plant).events) ∧
    ((cached_load_maps env (cached_load_maps env cs).cache).val
      = (cached_load_maps env cs).val ∧
     (cached_load_maps env (cached_load_maps env cs).cache).events = [] ∧
     (∀ p ∈ PLANTS, env.classMapFile p ≠ none →
        Event.readClassMap p ∈ (cached_load_maps env cs).events)) := by
  have hmiss := cached_load_plant_model_miss env cs plant hnc
  have hget : dictGet? (dictInsert cs.modelCache plant (load_plant_model env plant).1)
      plant = some (load_plant_model env plant).1 := by
    rw [dictGet?_dictInsert, if_pos rfl]
  have hhit := cached_load_plant_model_hit env
    ⟨cs.mapsCache, dictInsert cs.modelCache plant (load_plant_model env plant).1⟩
    plant (load_plant_model env plant).1 hget
  have hmmiss := cached_load_maps_miss env cs hm0
  have hmhit := cached_load_maps_hit env
    ⟨some (load_class_and_prevention_maps env).1, cs.modelCache⟩
    (load_class_and_prevention_maps env).1 rfl
  refine ⟨⟨?_, ?_, ?_, ?_⟩, ⟨?_, ?_, ?_⟩⟩
  · rw [hmiss]
    rw [show (⟨(load_plant_model env plant).1,
      ⟨cs.mapsCache, dictInsert cs.modelCache plant (load_plant_model env plant).1⟩,
      (load_plant_model env plant).2.1, (load_plant_model env plant).2.2⟩ :
        LoadResult (Option Model)).cache
      = ⟨cs.mapsCache, dictInsert cs.modelCache plant (load_plant_model env plant).1⟩
      from rfl]
    rw [hhit]
  · rw [hmiss]
    rw [show (⟨(load_plant_model env plant).1,
      ⟨cs.mapsCache, dictInsert cs.modelCache plant (load_plant_model env plant).1⟩,
      (load_plant_model env plant).2.1, (load_plant_model env plant).2.2⟩ :
        LoadResult (Option Model)).cache
      = ⟨cs.mapsCache, dictInsert cs.modelCache plant (load_plant_model env plant).1⟩
      from rfl]
    rw [hhit]
  · rw [hmiss]
    rw [show (⟨(load_plant_model env plant).1,
      ⟨cs.mapsCache, dictInsert cs.modelCache plant (load_plant_model env plant).1⟩,
      (load_plant_model env plant).2.1, (load_plant_model env plant).2.2⟩ :
        LoadResult (Option Model)).cache
      = ⟨cs.mapsCache, dictInsert cs.modelCache plant (load_plant_model env plant).1⟩
      from rfl]
    rw [hhit]
  · rw [hmiss]
    show Event.modelLookup plant ∈ (load_plant_model env plant).2.2
    unfold load_plant_model
    cases env.modelFile plant <;> simp
  · rw [hmmiss]
    rw [show (⟨(load_class_and_prevention_maps env).1,
      ⟨some (load_class_and_prevention_maps env).1, cs.modelCache⟩,
      (load_class_and_prevention_maps env).2.1,
      (load_class_and_prevention_maps env).2.2⟩ : LoadResult Maps).cache
      = ⟨some (load_class_and_prevention_maps env).1, cs.modelCache⟩ from rfl]
    rw [hmhit]
  · rw [hmmiss]
    rw [show (⟨(load_class_and_prevention_maps env).1,
      ⟨some (load_class_and_prevention_maps env).1, cs.modelCache⟩,
      (load_class_and_prevention_maps env).2.1,
      (load_class_and_prevention_maps env).2.2⟩ : LoadResult Maps).cache
      = ⟨some (load_class_and_prevention_maps env).1, cs.modelCache⟩ from rfl]
    rw [hmhit]
  · intro p hp hsome
    rw [hmmiss]
    exact loadMapsFor_event_readClassMap env PLANTS p hp hsome

/-- Witness for C5's amended statement at a concrete environment. -/
theorem C5_cache_once_witness :
    (cached_load_plant_model envAll
        (cached_load_plant_model envAll initialCache "apple").cache "apple").val
      = (cached_load_plant_model envAll initialCache "apple").val ∧
    (cached_load_plant_model envAll
        (cached_load_plant_model envAll initialCache "apple").cache "apple").events
      = [] ∧
    (cached_load_maps envAll (cached_load_maps envAll initialCache).cache).events
      = [] :=
  ⟨(C5_cache_once envAll initialCache "apple" rfl rfl).1.1,
   (C5_cache_once envAll initialCache "apple" rfl rfl).1.2.1,
   (C5_cache_once envAll initialCache "apple" rfl rfl).2.2.1⟩

/-- C6 counterexample: invoked with the unregistered category "banana" in an
environment with no files, the flow does not fail with a distinct
invalid-category error before resource loading — no such error kind exists
in the code.  It performs the model-path lookup (a load side effect), emits
the missing-model error naming the attempted path, and stops, refuting the
claim as stated. -/
theorem C6_counterexample :
    "banana" ∉ PLANTS ∧
    (detect envEmpty initialCache trFail emptyMaps "banana" "en").val
      = DetectResult.stopped ∧
    Event.modelLookup "banana"
      ∈ (detect envEmpty initialCache trFail emptyMaps "banana" "en").events ∧
    Diag.error ("Model not found: " ++ MODEL_DIR ++ "banana" ++ ".h5")
      ∈ (detect envEmpty initialCache trFail emptyMaps "banana" "en").diags := by
  refine ⟨by decide, by decide, by decide, by decide⟩

/-- C6 amended: the category selector offers exactly the registered
categories, so the flow can only be invoked with a registered one; and for a
category outside the registry (whose model artifact is therefore absent and
uncached) the flow attempts the model-path lookup and stops with the
missing-model error — there is no separate invalid-category check before
resource loading. -/
theorem C6_registry_via_selectbox (plant : String) (env : Env) (cs : CacheState)
    (tr : Translator) (maps : Maps) (lang_code : String)
    (_hplant : plant ∉ PLANTS)
    (hnc : dictGet? cs.modelCache plant = none)
    (hmiss : env.modelFile plant = none) :
    plantSelectboxOptions = PLANTS ∧
    (detect env cs tr maps plant lang_code).val = DetectResult.stopped ∧
    Event.modelLookup plant ∈ (detect env cs tr maps plant lang_code).events ∧
    Diag.error ("Model not found: " ++ MODEL_DIR ++ plant ++ ".h5")
      ∈ (detect env cs tr maps plant lang_code).diags := by
  have h1 : cached_load_plant_model env cs plant =
      ⟨none, ⟨cs.mapsCache, dictInsert cs.modelCache plant none⟩,
       [Diag.error ("Model not found: " ++ MODEL_DIR ++ plant ++ ".h5")],
       [Event.modelLookup plant]⟩ := by
    rw [cached_load_plant_model_miss env cs plant hnc]
    simp only [load_plant_model, hmiss]
  unfold detect
  rw [h1]
  refine ⟨rfl, rfl, ?_, ?_⟩ <;> simp

/-- Witness for C6's amended statement at the unregistered "banana". -/
theorem C6_registry_via_selectbox_witness :
    plantSelectboxOptions = PLANTS ∧
    (detect envEmpty initialCache trFail emptyMaps "banana" "en").val
      = DetectResult.stopped :=
  ⟨(C6_registry_via_selectbox "banana" envEmpty initialCache trFail emptyMaps
      "en" (by decide) rfl rfl).1,
   (C6_registry_via_selectbox "banana" envEmpty initialCache trFail emptyMaps
      "en" (by decide) rfl rfl).2.1⟩

/-- Fast path of `translate_text` for the default language. -/
theorem translate_text_en (tr : Translator) (text : String) :
    translate_text tr text "en" = (text, 0) := by
  unfold translate_text
  rw [if_pos (Or.inl rfl)]

/-- The displayed output of a successful detect run, in terms of its
inputs. -/
theorem detect_ok (env : Env) (cs : CacheState) (tr : Translator) (maps : Maps)
    (plant lang_code : String) (m : Model) (idx : Nat)
    (hm : (cached_load_plant_model env cs plant).val = some m)
    (hidx : argmax m = some idx) :
    (detect env cs tr maps plant lang_code).val
      = DetectResult.ok
          ⟨(translate_text tr (replaceUnderscores
              (dictGetD (dictGetD maps.inv_maps plant []) idx "Unknown Disease"))
              lang_code).1,
           m.getD idx 0,
           lowConfFlag (m.getD idx 0),
           (translate_text tr
              (dictGetD (dictGetD maps.prevention_maps plant [])
                (dictGetD (dictGetD maps.inv_maps plant []) idx "Unknown Disease")
                "No prevention advice available.") lang_code).1⟩ := by
  simp only [detect]
  rw [hm]
  dsimp only
  rw [classify_spec _ m idx hidx]

/-- C7: the low-confidence flag is attached exactly when the confidence is
strictly below 0.5 — set at 0.3, not set at exactly 0.5 (exclusive
threshold) — and in every successful detect run the displayed label is
computed from the argmax index and the metadata alone, independently of the
flag, so setting the flag never alters the resolved label. -/
theorem C7_low_confidence_flag :
    (∀ c : ℚ, lowConfFlag c = decide (c < mkRat 1 2)) ∧
    lowConfFlag (mkRat 3 10) = true ∧
    lowConfFlag (mkRat 1 2) = false ∧
    (∀ env cs tr maps plant lang_code out,
      (detect env cs tr maps plant lang_code).val = DetectResult.ok out →
      out.low_conf_warning = lowConfFlag out.confidence ∧
      ∃ m idx, (cached_load_plant_model env cs plant).val = some m ∧
        argmax m = some idx ∧
        out.disease_translated
          = (translate_text tr (replaceUnderscores
              (dictGetD (dictGetD maps.inv_maps plant []) idx "Unknown Disease"))
              lang_code).1) := by
  refine ⟨fun c => rfl, by decide, by decide, ?_⟩
  intro env cs tr maps plant lang_code out hok
  cases hval : (cached_load_plant_model env cs plant).val with
  | none =>
    have hstop : (detect env cs tr maps plant lang_code).val
        = DetectResult.stopped := by
      simp only [detect]
      rw [hval]
    rw [hstop] at hok
    cases hok
  | some m =>
    cases hidx : argmax m with
    | none =>
      have hraise : (detect env cs tr maps plant lang_code).val
          = DetectResult.raised := by
        simp only [detect]
        rw [hval]
        dsimp only
        rw [show classify (dictGetD maps.inv_maps plant []) m = none from by
          unfold classify
          rw [hidx]]
      rw [hraise] at hok
      cases hok
    | some idx =>
      have hd := detect_ok env cs tr maps plant lang_code m idx hval hidx
      rw [hd] at hok
      obtain rfl := DetectResult.ok.inj hok
      exact ⟨rfl, ⟨m, idx, rfl, hidx, rfl⟩⟩

/-- Witness for C7: the flag values at 0.3 and 0.5, and a successful run in
the all-files environment whose flag agrees with `lowConfFlag` of its
confidence. -/
theorem C7_low_confidence_flag_witness :
    lowConfFlag (mkRat 3 10) = true ∧
    lowConfFlag (mkRat 1 2) = false ∧
    ((detect envAll initialCache trFail (appStartup envAll initialCache).val
        "apple" "en").val
      = DetectResult.ok
          ⟨"Healthy", mkRat 9 10, false, "Water regularly."⟩) ∧
    (DetectOutput.mk "Healthy" (mkRat 9 10) false "Water regularly.").low_conf_warning
      = lowConfFlag (mkRat 9 10) :=
  ⟨C7_low_confidence_flag.2.1, C7_low_confidence_flag.2.2.1, by decide,
   (C7_low_confidence_flag.2.2.2 envAll initialCache trFail
      (appStartup envAll initialCache).val "apple" "en"
      ⟨"Healthy", mkRat 9 10, false, "Water regularly."⟩ (by decide)).1⟩

/-- C8: for a registered plant whose two metadata files are absent, each map
loads as empty rather than failing the category; the absences are reported
as warnings (the metadata loader emits warnings only, never errors), and a
detect run still completes, displaying the sentinel label
"Unknown Disease" and the sentinel advice
"No prevention advice available." (each passed through translation). -/
theorem C8_degraded_metadata (env : Env) (tr : Translator)
    (plant lang_code : String) (m : Model)
    (hp : plant ∈ PLANTS)
    (hcm : env.classMapFile plant = none)
    (hpf : env.preventionFile plant = none)
    (hmf : env.modelFile plant = some m) (hne : m ≠ []) :
    dictGet? (load_class_and_prevention_maps env).1.inv_maps plant = some [] ∧
    dictGet? (load_class_and_prevention_maps env).1.prevention_maps plant
      = some [] ∧
    Diag.warning ("⚠️ Class map missing for " ++ plant)
      ∈ (load_class_and_prevention_maps env).2.1 ∧
    Diag.warning ("⚠️ Prevention file missing for " ++ plant)
      ∈ (load_class_and_prevention_maps env).2.1 ∧
    (∀ d ∈ (load_class_and_prevention_maps env).2.1, ∃ msg, d = Diag.warning msg) ∧
    ∃ out,
      (detect env initialCache tr (load_class_and_prevention_maps env).1
          plant lang_code).val = DetectResult.ok out ∧
      out.disease_translated = (translate_text tr "Unknown Disease" lang_code).1 ∧
      out.prevention_translated
        = (translate_text tr "No prevention advice available." lang_code).1 := by
  have hinv := loadMapsFor_inv_missing env PLANTS plant hp hcm
  have hprev := loadMapsFor_prevention_missing env PLANTS plant hp hpf
  refine ⟨hinv, hprev,
    loadMapsFor_warn_classMap env PLANTS plant hp hcm,
    loadMapsFor_warn_prevention env PLANTS plant hp hpf,
    loadMapsFor_diags_warnings env PLANTS, ?_⟩
  obtain ⟨i, hidx, _, _, _⟩ := argmax_spec m hne
  have hmv : (cached_load_plant_model env initialCache plant).val = some m := by
    rw [cached_load_plant_model_miss env initialCache plant rfl]
    show (load_plant_model env plant).1 = some m
    unfold load_plant_model
    rw [hmf]
  have hd := detect_ok env initialCache tr (load_class_and_prevention_maps env).1
    plant lang_code m i hmv hidx
  have hinvD : dictGetD (load_class_and_prevention_maps env).1.inv_maps plant []
      = [] := by
    unfold dictGetD
    rw [show dictGet? (load_class_and_prevention_maps env).1.inv_maps plant
      = some [] from hinv]
    rfl
  have hprevD : dictGetD (load_class_and_prevention_maps env).1.prevention_maps
      plant [] = [] := by
    unfold dictGetD
    rw [show dictGet? (load_class_and_prevention_maps env).1.prevention_maps plant
      = some [] from hprev]
    rfl
  rw [hinvD, hprevD] at hd
  rw [show dictGetD ([] : List (Nat × String)) i "Unknown Disease"
    = "Unknown Disease" from rfl] at hd
  rw [show replaceUnderscores "Unknown Disease" = "Unknown Disease" from by
    decide] at hd
  rw [show dictGetD ([] : List (String × String)) "Unknown Disease"
    "No prevention advice available." = "No prevention advice available."
    from rfl] at hd
  exact ⟨_, hd, rfl, rfl⟩

/-- Witness for C8 in the environment with model files only, plant "apple",
target language "fr" with a failing translator. -/
theorem C8_degraded_metadata_witness :
    dictGet? (load_class_and_prevention_maps envModelOnly).1.inv_maps "apple"
      = some [] ∧
    Diag.warning ("⚠️ Class map missing for " ++ "apple")
      ∈ (load_class_and_prevention_maps envModelOnly).2.1 ∧
    ∃ out,
      (detect envModelOnly initialCache trFail
          (load_class_and_prevention_maps envModelOnly).1 "apple" "fr").val
        = DetectResult.ok out ∧
      out.disease_translated = (translate_text trFail "Unknown Disease" "fr").1 ∧
      out.prevention_translated
        = (translate_text trFail "No prevention advice available." "fr").1 :=
  ⟨(C8_degraded_metadata envModelOnly trFail "apple" "fr" [mkRat 6 10]
      (by decide) rfl rfl rfl (by decide)).1,
   (C8_degraded_metadata envModelOnly trFail "apple" "fr" [mkRat 6 10]
      (by decide) rfl rfl rfl (by decide)).2.2.1,
   (C8_degraded_metadata envModelOnly trFail "apple" "fr" [mkRat 6 10]
      (by decide) rfl rfl rfl (by decide)).2.2.2.2.2⟩

/-- C9: the advice lookup uses the raw resolved label (underscores intact) as
its key, while the displayed and translated disease name has every
underscore replaced by a space; hence for any label containing an
underscore and translation disabled (language "en") the displayed label
differs from the advice-lookup key, and an advice map whose keys are all
space-separated (underscore-free) is never matched by the raw label. -/
theorem C9_advice_key_mismatch (env : Env) (cs : CacheState) (tr : Translator)
    (maps : Maps) (plant : String) (m : Model) (idx : Nat) (label : String)
    (hm : (cached_load_plant_model env cs plant).val = some m)
    (hidx : argmax m = some idx)
    (hlabel : dictGetD (dictGetD maps.inv_maps plant []) idx "Unknown Disease"
      = label)
    (hund : '_' ∈ label.data) :
    ∃ out, (detect env cs tr maps plant "en").val = DetectResult.ok out ∧
      out.disease_translated = replaceUnderscores label ∧
      out.prevention_translated
        = dictGetD (dictGetD maps.prevention_maps plant []) label
            "No prevention advice available." ∧
      out.disease_translated ≠ label ∧
      (∀ pm : List (String × String), (∀ p ∈ pm, '_' ∉ p.1.data) →
        dictGet? pm label = none) := by
  have hd := detect_ok env cs tr maps plant "en" m idx hm hidx
  rw [hlabel] at hd
  rw [translate_text_en tr (replaceUnderscores label)] at hd
  rw [translate_text_en tr
    (dictGetD (dictGetD maps.prevention_maps plant []) label
      "No prevention advice available.")] at hd
  exact ⟨_, hd, rfl, rfl, replaceUnderscores_ne hund,
    fun pm hk => dictGet?_eq_none_of_no_underscore_keys hund hk⟩

/-- Witness for C9: in the environment whose class map resolves index 0 to
"Apple_scab" and whose advice map is keyed on "Apple scab", the run displays
"Apple scab" while the advice lookup — keyed on the raw "Apple_scab" — falls
back to the sentinel advice. -/
theorem C9_advice_key_mismatch_witness :
    ∃ out, (detect envScab initialCache trFail
        (appStartup envScab initialCache).val "apple" "en").val
      = DetectResult.ok out ∧
      out.disease_translated = replaceUnderscores "Apple_scab" ∧
      out.prevention_translated
        = dictGetD
            (dictGetD (appStartup envScab initialCache).val.prevention_maps
              "apple" [])
            "Apple_scab" "No prevention advice available." ∧
      out.disease_translated ≠ "Apple_scab" ∧
      (∀ pm : List (String × String), (∀ p ∈ pm, '_' ∉ p.1.data) →
        dictGet? pm "Apple_scab" = none) :=
  C9_advice_key_mismatch envScab initialCache trFail
    (appStartup envScab initialCache).val "apple" [mkRat 8 10] 0 "Apple_scab"
    (by decide) (by decide) (by decide) (by decide)

end PlantApp
